import Mathlib

/-!
Shallow embedding of the order synchronization and reconciliation subsystem of
the giorza_ultimate repository (src/app.py, src/models.py).

Order lines live in a process-wide cache (`app.config["ORDERS_CACHE"]`, a list
of dicts loaded from `ordini_clienti.csv`); quantities are modelled as rationals
(Python floats), dict keys that may be absent as `Option`.  Machine state is an
explicit `AppState` record; the generation counter `cacheGen` models the object
identity of the cache list: every Python assignment
`app.config["ORDERS_CACHE"] = ...` bumps it, so "same object" = "same counter".
Database sessions are modelled by explicit list-valued tables; a pending-then-
commit protocol is made explicit where the source's commit can fail
(`commitOk : Bool`), and SQLAlchemy autoflush is modelled by letting in-cycle
queries see pending (not yet committed) rows.
-/

namespace Giorza

/-- Python truthiness of an optional string (`None` and `""` are falsy). -/
def strTruthy : Option String → Bool
  | none => false
  | some s => decide (s ≠ "")

/-- Python truthiness of an optional number (`None` and `0` are falsy). -/
def ratTruthy : Option ℚ → Bool
  | none => false
  | some q => decide (q ≠ 0)

/-- One order line as carried in `ORDERS_CACHE` (a CSV row of
`ordini_clienti.csv` plus the fields added by enrichment).  Fields that a raw
CSV row always carries are total; keys that enrichment may leave absent are
`Option` (with `none` = key absent / value `None`).  CSV columns never read by
the modelled code (`cliente_codice`, `note_cliente`, `articolo`,
`data_evasione`) are omitted. -/
structure OrderLine where
  seriale : String
  codice_articolo : String
  descrizione_articolo : String
  descrizione_supplementare : String
  quantita : ℚ
  unita_misura : String
  prezzo_unitario : Option ℚ
  numero_ordine : String
  nome_cliente : String
  ritiro : String
  data_ordine : String
  data_arrivo : Option String := none
  codice_reparto : Option String := none
  unita_misura_2 : Option String := none
  quantita_um2 : Option ℚ := none
  operatore_conversione : Option String := none
  fattore_conversione : Option ℚ := none
  removed : Bool := false
deriving DecidableEq, Repr

/-- A row of the `articoli_reparti` reference table (models.py,
class ArticoloReparto): article → primary department and unit conversion. -/
structure ArticoloReparto where
  codice_articolo : String
  tipo_collo_1 : Option String
  unita_misura_2 : Option String
  operatore_conversione : Option String
  fattore_conversione : Option ℚ
deriving DecidableEq, Repr

/-- The article-reference lookup
(`ArticoloReparto.query.filter_by(codice_articolo=c).first()`). -/
def Lookup := String → Option ArticoloReparto

/-- Python `round(x, 3)` on a rational (round to nearest, used only for the
derived secondary quantity, whose exact value no claim depends on). -/
def round3 (q : ℚ) : ℚ := (round (q * 1000) : ℤ) / 1000

/-- Python `str.strip()`: drop leading and trailing whitespace. -/
def pyStrip (s : String) : String :=
  ⟨((s.data.dropWhile Char.isWhitespace).reverse.dropWhile Char.isWhitespace).reverse⟩

/-- The secondary-unit conversion block shared verbatim by `refresh_orders`
(app.py:169-206) and `refresh_orders_incremental` (app.py:256-293): if the
reference row carries a second unit, record it and derive the converted
quantity when operator and factor are truthy ("/" and "*" only; the
ZeroDivisionError/TypeError path degrades to no secondary quantity). -/
def conversionResult (art : ArticoloReparto) (q : ℚ) : Option ℚ :=
  if art.operatore_conversione.getD "" = "/" then
    (if art.fattore_conversione.getD 0 = 0 then none
     else some (q / art.fattore_conversione.getD 0))
  else if art.operatore_conversione.getD "" = "*" then
    some (q * art.fattore_conversione.getD 0)
  else none

def applyConversion (art : ArticoloReparto) (line : OrderLine) : OrderLine :=
  if strTruthy art.unita_misura_2 then
    if strTruthy art.operatore_conversione && ratTruthy art.fattore_conversione &&
        decide (line.quantita ≠ 0) then
      match conversionResult art line.quantita with
      | some v =>
          { line with unita_misura_2 := art.unita_misura_2,
                      quantita_um2 := some (round3 v),
                      operatore_conversione := art.operatore_conversione,
                      fattore_conversione := art.fattore_conversione }
      | none =>
          { line with unita_misura_2 := art.unita_misura_2,
                      quantita_um2 := none, operatore_conversione := none,
                      fattore_conversione := none }
    else
      { line with unita_misura_2 := art.unita_misura_2,
                  quantita_um2 := none, operatore_conversione := none,
                  fattore_conversione := none }
  else
    { line with unita_misura_2 := none, quantita_um2 := none,
                operatore_conversione := none, fattore_conversione := none }

/-- Department enrichment of one raw line, common shape of the per-line body of
`refresh_orders` (app.py:155-218, `fullMode = true`) and
`refresh_orders_incremental` (app.py:242-305, `fullMode = false`).
The arrival date is always set; when the stripped article code is blank the
rest of the block is skipped (no department is assigned in either mode); when
the article is found, a truthy primary department is copied, and an empty one
defaults to "REP05" in full mode but to "" in incremental mode; an article
missing from the reference table gets "REP05" in both modes. -/
def enrichLine (fullMode : Bool) (lookup : Lookup) (currentDate : String)
    (line : OrderLine) : OrderLine :=
  let line := { line with data_arrivo := some currentDate }
  let code := pyStrip line.codice_articolo
  if code = "" then line
  else
    match lookup code with
    | some art =>
        let line :=
          if strTruthy art.tipo_collo_1 then { line with codice_reparto := art.tipo_collo_1 }
          else if fullMode then { line with codice_reparto := some "REP05" }
          else { line with codice_reparto := some "" }
        applyConversion art line
    | none =>
        { line with codice_reparto := some "REP05", unita_misura_2 := none,
                    quantita_um2 := none, operatore_conversione := none,
                    fattore_conversione := none }

/-- A persisted row of `modified_order_lines` (models.py, class
ModifiedOrderLine).  Auto ids and timestamps are omitted; `removed` is the
"riga rimossa" flag. -/
structure ModifiedOrderLine where
  seriale : String
  codice_articolo : String
  descrizione_articolo : String
  descrizione_supplementare : String
  quantita : ℚ
  unita_misura : String
  unita_misura_2 : Option String
  quantita_um2 : Option ℚ
  operatore_conversione : Option String
  fattore_conversione : Option ℚ
  prezzo_unitario : Option ℚ
  codice_reparto : Option String
  data_ordine : String
  numero_ordine : String
  nome_cliente : String
  ritiro : String
  data_arrivo : Option String
  removed : Bool
deriving DecidableEq, Repr

/-- A row of `order_status` (one per order serial). -/
structure OrderStatusRow where
  seriale : String
  status : String
  operatore : String
deriving DecidableEq, Repr

/-- A row of `order_status_by_reparto` (unique per (seriale, reparto)). -/
structure StatusByRepartoRow where
  seriale : String
  reparto : String
  status : String
  operatore : String
deriving DecidableEq, Repr

/-- A row of the residue-snapshot table (models.py, class PartialOrderResidue;
one row per still-owed article after a department declares itself ready). -/
structure ResidueRow where
  seriale : String
  reparto : String
  numero_ordine : Option String
  nome_cliente : Option String
  codice_articolo : String
  descrizione_articolo : String
  residuo_quantita : ℚ
  unita_misura : String
deriving DecidableEq, Repr

/-- A row of `order_edits` (operator quantity override). -/
structure OrderEditRow where
  seriale : String
  articolo : String
  quantita_nuova : ℚ
  unita_misura : String
  operatore : String
  applied : Bool
deriving DecidableEq, Repr

/-- A row of `unavailable_lines`. -/
structure UnavailableRow where
  seriale : String
  codice_articolo : String
  reparto : Option String
  unavailable : Bool
  substitution_text : Option String
deriving DecidableEq, Repr

/-- The persistent tables the modelled core reads or writes. -/
structure DBState where
  modifiedLines : List ModifiedOrderLine
  orderStatus : List OrderStatusRow
  statusByReparto : List StatusByRepartoRow
  residues : List ResidueRow
  orderEdits : List OrderEditRow
  unavailableLines : List UnavailableRow
deriving DecidableEq, Repr

/-- Process-wide mutable state: the order cache (`app.config["ORDERS_CACHE"]`,
missing key ≡ empty list), its generation counter (bumped by every Python
assignment to the config slot, so reference identity = equal counter), the
`MODIFIED_LINES` side index (a dict serial → removed lines, modelled as an
association list), and the database. -/
structure AppState where
  ordersCache : List OrderLine
  cacheGen : Nat
  modifiedLinesIdx : List (String × List OrderLine)
  db : DBState
deriving DecidableEq, Repr

/-!  ### Reconciliation engine (`refresh_orders_incremental`, app.py:223-479) -/

/-- The line identity used for diffing: the composite of article code, quantity
and unit (the source concatenates them into the string
`codice_quantita_unita`; the triple is the same identity). -/
def lineSig (r : OrderLine) : String × ℚ × String :=
  (r.codice_articolo, r.quantita, r.unita_misura)

/-- Signature set of a group of lines (app.py:352-361). -/
def sigSet (righe : List OrderLine) : Finset (String × ℚ × String) :=
  (righe.map lineSig).toFinset

/-- Serial keys in Python dict insertion order (first occurrence first),
modelling `current_orders_by_serial` / `new_orders_by_serial` key sets
(app.py:322-336). -/
def serialKeys (orders : List OrderLine) : List String :=
  orders.foldl (fun acc o => if o.seriale ∈ acc then acc else acc ++ [o.seriale]) []

/-- The group of lines of one serial. -/
def serialLines (orders : List OrderLine) (s : String) : List OrderLine :=
  orders.filter (fun o => decide (o.seriale = s))

/-- "Content changed" test for one order (app.py:364-375): the signature sets
differ, or — the duplicated-identical-rows fallback — the raw line counts
differ. -/
def orderChanged (cur new : List OrderLine) : Bool :=
  decide (sigSet cur ≠ sigSet new) || decide (cur.length ≠ new.length)

/-- The serials flagged as modified by the diff loop (app.py:342-375): only
serials of the new snapshot are examined, and only those also present in the
old cache can be flagged. -/
def modifiedSerials (cur new : List OrderLine) : List String :=
  (serialKeys new).filter (fun s =>
    decide (s ∈ serialKeys cur) && orderChanged (serialLines cur s) (serialLines new s))

/-- Signatures that disappeared from an order (old minus new, app.py:405). -/
def removedSigs (cur new : List OrderLine) : Finset (String × ℚ × String) :=
  sigSet cur \ sigSet new

/-- The physical old lines whose signature disappeared, each marked with the
`removed` display flag (app.py:406-412). -/
def removedLinesFor (cur new : List OrderLine) : List OrderLine :=
  (cur.filter (fun r => decide (lineSig r ∈ removedSigs cur new))).map
    (fun r => { r with removed := true })

/-- Natural dedup key of a `modified_order_lines` row:
(seriale, codice_articolo, quantita, unita_misura) (app.py:417-422). -/
def molKey (m : ModifiedOrderLine) : String × String × ℚ × String :=
  (m.seriale, m.codice_articolo, m.quantita, m.unita_misura)

/-- The dedup key a disappeared cache line would be stored under. -/
def lineKey (s : String) (r : OrderLine) : String × String × ℚ × String :=
  (s, r.codice_articolo, r.quantita, r.unita_misura)

/-- The `ModifiedOrderLine(...)` constructor call of the reconciliation engine
(app.py:425-444): a durable copy of the disappeared line, `removed = True`. -/
def molOfRemovedLine (s : String) (r : OrderLine) : ModifiedOrderLine :=
  { seriale := s
    codice_articolo := r.codice_articolo
    descrizione_articolo := r.descrizione_articolo
    descrizione_supplementare := r.descrizione_supplementare
    quantita := r.quantita
    unita_misura := r.unita_misura
    unita_misura_2 := r.unita_misura_2
    quantita_um2 := r.quantita_um2
    operatore_conversione := r.operatore_conversione
    fattore_conversione := r.fattore_conversione
    prezzo_unitario := r.prezzo_unitario
    codice_reparto := r.codice_reparto
    data_ordine := r.data_ordine
    numero_ordine := r.numero_ordine
    nome_cliente := r.nome_cliente
    ritiro := r.ritiro
    data_arrivo := r.data_arrivo
    removed := true }

/-- Persist one disappeared line into the session-visible table, guarded by the
dedup lookup (app.py:416-445).  `acc` is committed rows plus pending adds —
SQLAlchemy autoflush makes the `.first()` query see pending rows too. -/
def addRemovedLine (s : String) (acc : List ModifiedOrderLine) (r : OrderLine) :
    List ModifiedOrderLine :=
  if acc.any (fun m => decide (molKey m = lineKey s r)) then acc
  else acc ++ [molOfRemovedLine s r]

/-- Persist all disappeared lines of one flagged serial (app.py:387-448). -/
def persistSerial (cur new : List OrderLine) (acc : List ModifiedOrderLine)
    (s : String) : List ModifiedOrderLine :=
  (removedLinesFor (serialLines cur s) (serialLines new s)).foldl (addRemovedLine s) acc

/-- The `MODIFIED_LINES` index written by a modifying cycle (app.py:461-474):
after the dict of serials-with-removed-lines is stored, every remaining
modified serial is added with an empty list, so the net content maps each
flagged serial to its removed lines. -/
def mlIdxFor (cur new : List OrderLine) (mods : List String) :
    List (String × List OrderLine) :=
  mods.map (fun s => (s, removedLinesFor (serialLines cur s) (serialLines new s)))

/-- The reconciliation step of `refresh_orders_incremental` on an already
enriched snapshot (app.py:307-479): bootstrap adoption when the cache is
empty; otherwise diff per serial, and when any order changed or the total line
count differs, persist the disappeared lines (committed only when the database
commit succeeds — on failure the session is rolled back, app.py:453-459),
store the `MODIFIED_LINES` index, and replace the cache; else do nothing.
`reconcilePersistStep` is the `if orders_modified:` persistence block
(app.py:382-474); `reconcile` wraps it with the bootstrap fast path and the
swap decision. -/
def reconcilePersistStep (st : AppState) (newOrders : List OrderLine)
    (commitOk : Bool) : AppState :=
  if !(modifiedSerials st.ordersCache newOrders).isEmpty then
    { st with
        db := if commitOk then
            { st.db with modifiedLines :=
                ((modifiedSerials st.ordersCache newOrders).foldl
                  (persistSerial st.ordersCache newOrders) st.db.modifiedLines) }
          else st.db,
        modifiedLinesIdx :=
          mlIdxFor st.ordersCache newOrders (modifiedSerials st.ordersCache newOrders) }
  else st

def reconcile (st : AppState) (newOrders : List OrderLine) (commitOk : Bool) :
    AppState :=
  if st.ordersCache.isEmpty then
    { st with ordersCache := newOrders, cacheGen := st.cacheGen + 1 }
  else if !(modifiedSerials st.ordersCache newOrders).isEmpty
      || decide (newOrders.length ≠ st.ordersCache.length) then
    { reconcilePersistStep st newOrders commitOk with
        ordersCache := newOrders,
        cacheGen := (reconcilePersistStep st newOrders commitOk).cacheGen + 1 }
  else st

/-- `refresh_orders_incremental` end to end (app.py:223-479): the snapshot
producer (`_run_script` on the extraction script plus the CSV load,
app.py:226-232) either fails — `subprocess.run(..., check=True)` raises before
any read or write of cache or database — or yields raw lines that are enriched
in incremental mode and reconciled. -/
def refreshOrdersIncremental (producer : Except String (List OrderLine))
    (lookup : Lookup) (currentDate : String) (commitOk : Bool) (st : AppState) :
    AppState :=
  match producer with
  | .error _ => st
  | .ok raws => reconcile st (raws.map (enrichLine false lookup currentDate)) commitOk

/-- `refresh_orders` (app.py:139-220), the full reload: on producer failure the
raised error leaves everything untouched; on success the enriched snapshot
replaces the cache wholesale with no diffing and no persistence. -/
def refreshOrders (producer : Except String (List OrderLine))
    (lookup : Lookup) (currentDate : String) (st : AppState) : AppState :=
  match producer with
  | .error _ => st
  | .ok raws =>
      { st with ordersCache := raws.map (enrichLine true lookup currentDate),
                cacheGen := st.cacheGen + 1 }

/-!  ### Status roll-up and residue bookkeeping -/

/-- Update the first row satisfying `p` (SQLAlchemy `.first()` followed by
attribute mutation). -/
def updateFirst (p : α → Bool) (f : α → α) : List α → List α
  | [] => []
  | x :: xs => if p x then f x :: xs else x :: updateFirst p f xs

/-- Keep-first deduplication, modelling Python set/dict accumulation order. -/
def dedupKeys (l : List String) : List String :=
  l.foldl (fun acc s => if s ∈ acc then acc else acc ++ [s]) []

/-- The departments involved in an order (`get_ordine_reparti`,
app.py:490-501, and the equivalent per-serial precomputation of `home`,
app.py:845-853): the truthy `codice_reparto` values of the order's cached
lines. -/
def ordineReparti (orders : List OrderLine) (s : String) : List String :=
  dedupKeys (((orders.filter (fun o => decide (o.seriale = s) &&
      strTruthy o.codice_reparto)).map (fun o => o.codice_reparto.getD "")))

/-- Status of a (seriale, reparto) pair in `order_status_by_reparto`
(`none` when no row exists; the table is unique per pair). -/
def statusOfReparto (rows : List StatusByRepartoRow) (s r : String) : Option String :=
  (rows.find? (fun row => decide (row.seriale = s) && decide (row.reparto = r))).map
    (fun row => row.status)

/-- The order-level status derived by the cassiere branch of `home`
(app.py:861-888): `nuovo` when the order has no departments; else `pronto`
when every involved department is `pronto`; else `in_preparazione` when some
involved department is `in_preparazione`; else `nuovo`. -/
def homeOrderStatus (st : AppState) (s : String) : String :=
  if (ordineReparti st.ordersCache s).isEmpty then "nuovo"
  else if (ordineReparti st.ordersCache s).all
      (fun r => decide (statusOfReparto st.db.statusByReparto s r = some "pronto"))
    then "pronto"
  else if (ordineReparti st.ordersCache s).any
      (fun r => decide (statusOfReparto st.db.statusByReparto s r = some "in_preparazione"))
    then "in_preparazione"
  else "nuovo"

/-- Upsert of the per-department status row (app.py:2765-2781). -/
def upsertStatusByReparto (rows : List StatusByRepartoRow)
    (s rep stat op : String) : List StatusByRepartoRow :=
  if rows.any (fun row => decide (row.seriale = s) && decide (row.reparto = rep)) then
    updateFirst (fun row => decide (row.seriale = s) && decide (row.reparto = rep))
      (fun row => { row with status := stat, operatore := op }) rows
  else rows ++ [{ seriale := s, reparto := rep, status := stat, operatore := op }]

/-- "All involved departments are pronto" (app.py:2800-2804), evaluated against
the session state after the upsert (autoflush makes the batch query see the
just-posted status). -/
def tuttiPronti (rows : List StatusByRepartoRow) (cache : List OrderLine)
    (s : String) : Bool :=
  (ordineReparti cache s).all (fun r => decide (statusOfReparto rows s r = some "pronto"))

/-- First `modified_order_lines` row for (seriale, articolo)
(`ModifiedOrderLine.query.filter_by(...).first()`). -/
def molFirst (mols : List ModifiedOrderLine) (s a : String) : Option ModifiedOrderLine :=
  mols.find? (fun m => decide (m.seriale = s) && decide (m.codice_articolo = a))

/-- The `continue` guard of the confirmed-quantity loop (app.py:2858-2861): an
applied edit is skipped when the user has a department, a modified-line row for
the article exists, carries a truthy department, and that department is not the
user's. -/
def editSkipped (mols : List ModifiedOrderLine) (seriale reparto articolo : String) :
    Bool :=
  decide (reparto ≠ "") &&
    (match molFirst mols seriale articolo with
     | some mol => strTruthy mol.codice_reparto && decide (mol.codice_reparto ≠ some reparto)
     | none => false)

/-- Requested quantity of one article over the department's cached lines
(app.py:2848-2853). -/
def requestedFor (lines : List OrderLine) (code : String) : ℚ :=
  ((lines.filter (fun r => decide (r.codice_articolo = code))).map
    (fun r => r.quantita)).sum

/-- Confirmed quantity of one article: sum of applied edits of the serial that
survive the department guard (app.py:2856-2862). -/
def confirmedFor (edits : List OrderEditRow) (mols : List ModifiedOrderLine)
    (seriale reparto code : String) : ℚ :=
  ((edits.filter (fun e => decide (e.seriale = seriale) && e.applied &&
      decide (e.articolo = code) && !(editSkipped mols seriale reparto e.articolo))).map
    (fun e => e.quantita_nuova)).sum

/-- Article codes in first-occurrence order (`requested_by_code` dict keys). -/
def codesOf (lines : List OrderLine) : List String :=
  dedupKeys (lines.map (fun r => r.codice_articolo))

/-- The order's cached lines belonging to the department (`original_lines`,
app.py:2847). -/
def residueLinesOf (cache : List OrderLine) (seriale reparto : String) :
    List OrderLine :=
  cache.filter (fun o => decide (o.seriale = seriale) &&
    decide (o.codice_reparto = some reparto))

/-- One residue row as built at app.py:2874-2883 (`header` is the first
department line, `base` the first line of the article). -/
def mkResidueRow (originalLines : List OrderLine) (seriale reparto code : String)
    (residuo : ℚ) : ResidueRow :=
  { seriale := seriale
    reparto := reparto
    numero_ordine := originalLines.head?.map (fun h => h.numero_ordine)
    nome_cliente := originalLines.head?.map (fun h => h.nome_cliente)
    codice_articolo := code
    descrizione_articolo :=
      ((originalLines.find? (fun r => decide (r.codice_articolo = code))).map
        (fun r => r.descrizione_articolo)).getD ""
    residuo_quantita := residuo
    unita_misura :=
      ((originalLines.find? (fun r => decide (r.codice_articolo = code))).map
        (fun r => r.unita_misura)).getD "" }

/-- The residue rows a `pronto` transition computes for (seriale, reparto)
(app.py:2846-2883): over the order's cached lines of that department, per
article residue = max 0 (requested − confirmed), persisted only when it
exceeds the 0.0001 epsilon. -/
def residueRowsFor (cache : List OrderLine) (edits : List OrderEditRow)
    (mols : List ModifiedOrderLine) (seriale reparto : String) : List ResidueRow :=
  (codesOf (residueLinesOf cache seriale reparto)).filterMap (fun code =>
    if max 0 (requestedFor (residueLinesOf cache seriale reparto) code -
        confirmedFor edits mols seriale reparto code) > 1 / 10000 then
      some (mkResidueRow (residueLinesOf cache seriale reparto) seriale reparto code
        (max 0 (requestedFor (residueLinesOf cache seriale reparto) code -
          confirmedFor edits mols seriale reparto code)))
    else none)

/-- The full-replace residue recomputation (app.py:2864-2883): delete every
prior row of the exact (seriale, reparto) pair, then append the freshly
computed rows. -/
def replaceResidues (cache : List OrderLine) (db : DBState)
    (seriale reparto : String) : DBState :=
  { db with residues :=
      db.residues.filter (fun row => !(decide (row.seriale = seriale) &&
        decide (row.reparto = reparto))) ++
      residueRowsFor cache db.orderEdits db.modifiedLines seriale reparto }

/-- `update_order_status` (app.py:2752-2902), picker-with-department branch,
`newStatus ∈ {in_preparazione, pronto}` (the route rejects anything else):
upsert the department status; recompute `tutti_pronti` over the departments of
the cached lines; update the order-level row — to `pronto` when all are
pronto, to `in_preparazione` when that was posted, otherwise only the
operator/timestamp change — or create it as `pronto`/`in_preparazione`; and on
a posted `pronto`, recompute the residues for (seriale, reparto) as a full
replace.  Commits are modelled as succeeding.  `generalStatusUpdate` is the
order-level block (app.py:2806-2827), `statusTablesUpdate` both status
writes, `updateOrderStatus` the whole request. -/
def generalRowUpdate (operatore : String) (allPronti : Bool) (newStatus : String)
    (row : OrderStatusRow) : OrderStatusRow :=
  { (if allPronti then { row with status := "pronto" }
     else if newStatus = "in_preparazione" then { row with status := "in_preparazione" }
     else row) with operatore := operatore }

def generalStatusUpdate (rows : List OrderStatusRow) (seriale operatore : String)
    (allPronti : Bool) (newStatus : String) : List OrderStatusRow :=
  if rows.any (fun row => decide (row.seriale = seriale)) then
    updateFirst (fun row => decide (row.seriale = seriale))
      (generalRowUpdate operatore allPronti newStatus) rows
  else
    rows ++ [{ seriale := seriale,
               status := if allPronti then "pronto" else "in_preparazione",
               operatore := operatore }]

def statusTablesUpdate (st : AppState) (seriale reparto operatore newStatus : String) :
    DBState :=
  { st.db with
      statusByReparto :=
        upsertStatusByReparto st.db.statusByReparto seriale reparto newStatus operatore,
      orderStatus :=
        generalStatusUpdate st.db.orderStatus seriale operatore
          (tuttiPronti (upsertStatusByReparto st.db.statusByReparto seriale reparto
            newStatus operatore) st.ordersCache seriale) newStatus }

def updateOrderStatus (st : AppState) (seriale reparto operatore newStatus : String) :
    AppState :=
  { st with db :=
      (if newStatus = "pronto" then
        replaceResidues st.ordersCache
          (statusTablesUpdate st seriale reparto operatore newStatus) seriale reparto
      else statusTablesUpdate st seriale reparto operatore newStatus) }

/-!  ### Marking lines unavailable (`mark_lines_unavailable`, app.py:2906-2976) -/

/-- One entry of the JSON payload of the unavailable-lines route. -/
structure UnavailItem where
  articolo : String
  substitution_text : Option String
  unavailable : Bool
deriving DecidableEq, Repr

/-- The backing `ModifiedOrderLine(...)` created by `mark_lines_unavailable`
when none exists for (seriale, articolo) (app.py:2938-2954): a copy of the
first matching cache line with `removed = False`; the price and conversion
operator/factor columns are not passed and default to null. -/
def molOfUnavailBase (s : String) (base : OrderLine) : ModifiedOrderLine :=
  { seriale := s
    codice_articolo := base.codice_articolo
    descrizione_articolo := base.descrizione_articolo
    descrizione_supplementare := base.descrizione_supplementare
    quantita := base.quantita
    unita_misura := base.unita_misura
    unita_misura_2 := base.unita_misura_2
    quantita_um2 := base.quantita_um2
    operatore_conversione := none
    fattore_conversione := none
    prezzo_unitario := none
    codice_reparto := base.codice_reparto
    data_ordine := base.data_ordine
    numero_ordine := base.numero_ordine
    nome_cliente := base.nome_cliente
    ritiro := base.ritiro
    data_arrivo := base.data_arrivo
    removed := false }

/-- Upsert of the dedicated availability record (app.py:2958-2964). -/
def upsertUnavailable (rows : List UnavailableRow) (s a : String)
    (rep : Option String) (item : UnavailItem) : List UnavailableRow :=
  let text := pyStrip (item.substitution_text.getD "")
  let setFields := fun (row : UnavailableRow) =>
    { row with unavailable := item.unavailable,
               substitution_text := if item.unavailable then some text else none }
  if rows.any (fun row => decide (row.seriale = s) && decide (row.codice_articolo = a) &&
      decide (row.reparto = rep)) then
    updateFirst (fun row => decide (row.seriale = s) && decide (row.codice_articolo = a) &&
      decide (row.reparto = rep)) setFields rows
  else rows ++ [setFields { seriale := s, codice_articolo := a, reparto := rep,
                            unavailable := false, substitution_text := none }]

/-- `auto_start_preparation` (app.py:2701-2749): with a truthy department, set
the (seriale, reparto) status to `in_preparazione` unless it is already
`in_preparazione` or `pronto`, and the order-level status to `in_preparazione`
unless it is already `pronto`. -/
def autoStartPreparation (db : DBState) (seriale operatore reparto : String) : DBState :=
  if reparto = "" then db
  else
    let sbr :=
      if db.statusByReparto.any (fun row => decide (row.seriale = seriale) &&
          decide (row.reparto = reparto)) then
        updateFirst (fun row => decide (row.seriale = seriale) && decide (row.reparto = reparto))
          (fun row =>
            if row.status = "in_preparazione" ∨ row.status = "pronto" then row
            else { row with status := "in_preparazione", operatore := operatore })
          db.statusByReparto
      else db.statusByReparto ++
        [{ seriale := seriale, reparto := reparto, status := "in_preparazione",
           operatore := operatore }]
    let os :=
      if db.orderStatus.any (fun row => decide (row.seriale = seriale)) then
        updateFirst (fun row => decide (row.seriale = seriale))
          (fun row =>
            if row.status = "pronto" then row
            else { row with status := "in_preparazione", operatore := operatore })
          db.orderStatus
      else db.orderStatus ++
        [{ seriale := seriale, status := "in_preparazione", operatore := operatore }]
    { db with statusByReparto := sbr, orderStatus := os }

/-- Processing of one payload item (app.py:2926-2964): skip falsy articles and
articles outside the caller's department view; ensure a backing
`modified_order_lines` row exists (creating one with `removed = False` from
the first matching cache line, skipping the item entirely when no cache line
matches); then upsert the availability record. -/
def processUnavailItem (cache : List OrderLine) (seriale : String)
    (userReparto : Option String) (articoliReparto : List String)
    (db : DBState) (item : UnavailItem) : DBState :=
  if item.articolo = "" ∨ item.articolo ∉ articoliReparto then db
  else
    match molFirst db.modifiedLines seriale item.articolo with
    | some _ =>
        { db with unavailableLines :=
            upsertUnavailable db.unavailableLines seriale item.articolo userReparto item }
    | none =>
        match cache.find? (fun r => decide (r.seriale = seriale) &&
            decide (r.codice_articolo = item.articolo)) with
        | none => db
        | some base =>
            { db with
                modifiedLines := db.modifiedLines ++ [molOfUnavailBase seriale base],
                unavailableLines :=
                  upsertUnavailable db.unavailableLines seriale item.articolo userReparto item }

/-- The article codes visible to the caller (app.py:2920-2923): the articles
of the serial restricted to the caller's department when they have one. -/
def articoliDiReparto (cache : List OrderLine) (seriale : String)
    (userReparto : Option String) : List String :=
  (cache.filter (fun r => decide (r.seriale = seriale) &&
      (!(strTruthy userReparto) || decide (r.codice_reparto = userReparto)))).map
    (fun r => r.codice_articolo)

/-- `mark_lines_unavailable` (app.py:2908-2976) for a picker: restrict to the
articles of the caller's department (all articles of the serial when the user
has no department), process each payload item, then auto-start preparation
when the user has a truthy department. -/
def markLinesUnavailable (st : AppState) (seriale : String)
    (userReparto : Option String) (username : String)
    (payload : List UnavailItem) : AppState :=
  { st with db :=
      (if strTruthy userReparto then
        autoStartPreparation
          (payload.foldl (processUnavailItem st.ordersCache seriale userReparto
            (articoliDiReparto st.ordersCache seriale userReparto)) st.db)
          seriale username (userReparto.getD "")
      else
        payload.foldl (processUnavailItem st.ordersCache seriale userReparto
          (articoliDiReparto st.ordersCache seriale userReparto)) st.db) }

/-!  ### Concrete fixtures used by witnesses and counterexamples -/

/-- A sample cached order line. -/
def exLine (s a : String) (q : ℚ) (u rep : String) : OrderLine :=
  { seriale := s, codice_articolo := a, descrizione_articolo := "desc",
    descrizione_supplementare := "", quantita := q, unita_misura := u,
    prezzo_unitario := none, numero_ordine := "N1", nome_cliente := "Cliente",
    ritiro := "", data_ordine := "2026-01-10",
    data_arrivo := some "2026-02-01", codice_reparto := some rep }

/-- Empty database. -/
def emptyDB : DBState :=
  { modifiedLines := [], orderStatus := [], statusByReparto := [],
    residues := [], orderEdits := [], unavailableLines := [] }

/-- Fresh application state over a given cache and database. -/
def mkState (cache : List OrderLine) (db : DBState) : AppState :=
  { ordersCache := cache, cacheGen := 0, modifiedLinesIdx := [], db := db }

/-!  ### Helper lemmas -/

theorem foldl_serialKeys_mem (orders : List OrderLine) (init : List String) (s : String) :
    (s ∈ orders.foldl (fun acc o => if o.seriale ∈ acc then acc else acc ++ [o.seriale]) init) ↔
      s ∈ init ∨ ∃ o ∈ orders, o.seriale = s := by
  induction orders generalizing init with
  | nil => simp
  | cons o rest ih =>
      simp only [List.foldl_cons]
      rw [ih]
      by_cases h : o.seriale ∈ init
      · simp only [h, if_true]
        constructor
        · rintro (hs | ⟨r, hr, hrs⟩)
          · exact Or.inl hs
          · exact Or.inr ⟨r, List.mem_cons_of_mem _ hr, hrs⟩
        · rintro (hs | ⟨r, hr, hrs⟩)
          · exact Or.inl hs
          · rcases List.mem_cons.mp hr with rfl | hr2
            · exact Or.inl (hrs ▸ h)
            · exact Or.inr ⟨r, hr2, hrs⟩
      · simp only [h, if_false, List.mem_append, List.mem_singleton]
        constructor
        · rintro ((hs | hs) | ⟨r, hr, hrs⟩)
          · exact Or.inl hs
          · exact Or.inr ⟨o, List.mem_cons_self _ _, hs.symm⟩
          · exact Or.inr ⟨r, List.mem_cons_of_mem _ hr, hrs⟩
        · rintro (hs | ⟨r, hr, hrs⟩)
          · exact Or.inl (Or.inl hs)
          · rcases List.mem_cons.mp hr with rfl | hr2
            · exact Or.inl (Or.inr hrs.symm)
            · exact Or.inr ⟨r, hr2, hrs⟩

theorem mem_serialKeys (orders : List OrderLine) (s : String) :
    s ∈ serialKeys orders ↔ ∃ o ∈ orders, o.seriale = s := by
  simpa [serialKeys] using foldl_serialKeys_mem orders [] s

theorem orderChanged_iff (cur new : List OrderLine) :
    orderChanged cur new = true ↔
      (sigSet cur ≠ sigSet new ∨ cur.length ≠ new.length) := by
  simp [orderChanged]

theorem mem_modifiedSerials (cur new : List OrderLine) (s : String) :
    s ∈ modifiedSerials cur new ↔
      s ∈ serialKeys new ∧ s ∈ serialKeys cur ∧
      orderChanged (serialLines cur s) (serialLines new s) = true := by
  simp [modifiedSerials, List.mem_filter, and_assoc]

/-!  ### C2 -/

/-- C2: when the cache is non-empty, the total line counts match, and for every
serial present in both generations the signature sets and raw line counts
agree, incremental reconciliation is a complete no-op: the returned state is
the input state — same cache generation (so the `ORDERS_CACHE` reference is
not replaced), no `modified_order_lines` row created, and the
`MODIFIED_LINES` index untouched. -/
theorem C2_noop_when_unchanged (st : AppState) (new : List OrderLine) (ok : Bool)
    (hne : st.ordersCache ≠ [])
    (hlen : new.length = st.ordersCache.length)
    (hsame : ∀ s ∈ serialKeys new, s ∈ serialKeys st.ordersCache →
      sigSet (serialLines st.ordersCache s) = sigSet (serialLines new s) ∧
      (serialLines st.ordersCache s).length = (serialLines new s).length) :
    reconcile st new ok = st := by
  have hempty : st.ordersCache.isEmpty = false := by
    simpa [List.isEmpty_iff] using hne
  have hmods : modifiedSerials st.ordersCache new = [] := by
    unfold modifiedSerials
    refine List.filter_eq_nil_iff.mpr ?_
    intro s hs
    simp only [Bool.and_eq_true, decide_eq_true_eq, not_and]
    intro hmem
    obtain ⟨h1, h2⟩ := hsame s hs hmem
    simp [orderChanged, h1, h2]
  unfold reconcile
  simp [hempty, hmods, hlen]

/-- C2 witness: a byte-identical snapshot over a one-line cache leaves the
state untouched. -/
theorem C2_noop_when_unchanged_witness :
    reconcile (mkState [exLine "A" "a1" 5 "pz" "R1"] emptyDB)
      [exLine "A" "a1" 5 "pz" "R1"] true =
    mkState [exLine "A" "a1" 5 "pz" "R1"] emptyDB :=
  C2_noop_when_unchanged _ _ _ (by decide) (by decide) (by decide)

/-!  ### C3 -/

/-- C3: a serial present in both the old cache and the new snapshot is flagged
as content-changed exactly when the signature sets of its lines differ or the
raw line counts differ. -/
theorem C3_changed_iff (cur new : List OrderLine) (s : String)
    (hnew : s ∈ serialKeys new) (hcur : s ∈ serialKeys cur) :
    s ∈ modifiedSerials cur new ↔
      (sigSet (serialLines cur s) ≠ sigSet (serialLines new s) ∨
       (serialLines cur s).length ≠ (serialLines new s).length) := by
  rw [mem_modifiedSerials, orderChanged_iff]
  simp [hnew, hcur]

/-- C3 witness: the duplicated-identical-rows edge case — old order "B" with
two identical-signature lines against a new snapshot with one such line has
equal signature sets yet is flagged as changed (count fallback). -/
theorem C3_changed_iff_witness :
    sigSet (serialLines [exLine "B" "a1" 5 "pz" "R1", exLine "B" "a1" 5 "pz" "R1"] "B") =
      sigSet (serialLines [exLine "B" "a1" 5 "pz" "R1"] "B") ∧
    "B" ∈ modifiedSerials [exLine "B" "a1" 5 "pz" "R1", exLine "B" "a1" 5 "pz" "R1"]
      [exLine "B" "a1" 5 "pz" "R1"] := by
  refine ⟨by decide, ?_⟩
  exact (C3_changed_iff _ _ "B" (by decide) (by decide)).mpr (Or.inr (by decide))

/-!  ### C4 -/

/-- C4: when the snapshot producer fails, both the incremental refresh and the
full reload abort before touching anything: the returned state (cache,
`MODIFIED_LINES` index, and all persisted tables) is exactly the input
state. -/
theorem C4_producer_failure_aborts (lookup : Lookup) (date msg : String)
    (ok : Bool) (st : AppState) :
    refreshOrdersIncremental (.error msg) lookup date ok st = st ∧
    refreshOrders (.error msg) lookup date st = st :=
  ⟨rfl, rfl⟩

/-!  ### C5 -/

/-- C5: when content changes were detected but the audit commit fails, the
rollback leaves the database exactly as before, yet the cache swap still
happens: the cache becomes the new snapshot and the generation counter is
bumped. -/
theorem C5_commit_failure_still_swaps (st : AppState) (new : List OrderLine)
    (hne : st.ordersCache ≠ [])
    (hmod : modifiedSerials st.ordersCache new ≠ []) :
    (reconcile st new false).ordersCache = new ∧
    (reconcile st new false).cacheGen = st.cacheGen + 1 ∧
    (reconcile st new false).db = st.db := by
  have hempty : st.ordersCache.isEmpty = false := by
    simpa [List.isEmpty_iff] using hne
  have hmods : (modifiedSerials st.ordersCache new).isEmpty = false := by
    simpa [List.isEmpty_iff] using hmod
  unfold reconcile
  simp only [hempty, Bool.false_eq_true, if_false, hmods, Bool.not_false, Bool.true_or, if_true]
  refine ⟨trivial, ?_, ?_⟩ <;> · unfold reconcilePersistStep; simp [hmods]

/-- C5 witness: a concrete disappearance with a failing commit — the cache is
swapped, the generation bumps, the database is untouched. -/
theorem C5_commit_failure_still_swaps_witness :
    (reconcile (mkState [exLine "A" "a1" 5 "pz" "R1", exLine "A" "a2" 2 "kg" "R1"] emptyDB)
      [exLine "A" "a1" 5 "pz" "R1"] false).ordersCache = [exLine "A" "a1" 5 "pz" "R1"] ∧
    (reconcile (mkState [exLine "A" "a1" 5 "pz" "R1", exLine "A" "a2" 2 "kg" "R1"] emptyDB)
      [exLine "A" "a1" 5 "pz" "R1"] false).cacheGen = 1 ∧
    (reconcile (mkState [exLine "A" "a1" 5 "pz" "R1", exLine "A" "a2" 2 "kg" "R1"] emptyDB)
      [exLine "A" "a1" 5 "pz" "R1"] false).db = emptyDB :=
  C5_commit_failure_still_swaps _ _ (by decide) (by decide)

/-!  ### Persistence-fold lemmas shared by C1, C9 and C10 -/

theorem addRemovedLine_cases (s : String) (acc : List ModifiedOrderLine) (r : OrderLine) :
    addRemovedLine s acc r = acc ∨
    addRemovedLine s acc r = acc ++ [molOfRemovedLine s r] := by
  unfold addRemovedLine
  split <;> simp

theorem mem_addRemovedLine (s : String) (acc : List ModifiedOrderLine) (r : OrderLine)
    (m : ModifiedOrderLine) (hm : m ∈ addRemovedLine s acc r) :
    m ∈ acc ∨ m = molOfRemovedLine s r := by
  rcases addRemovedLine_cases s acc r with h | h <;> rw [h] at hm
  · exact Or.inl hm
  · rcases List.mem_append.mp hm with h2 | h2
    · exact Or.inl h2
    · exact Or.inr (List.mem_singleton.mp h2)

theorem addRemovedLine_mono (s : String) (acc : List ModifiedOrderLine) (r : OrderLine)
    (m : ModifiedOrderLine) (hm : m ∈ acc) : m ∈ addRemovedLine s acc r := by
  rcases addRemovedLine_cases s acc r with h | h <;> rw [h]
  · exact hm
  · exact List.mem_append.mpr (Or.inl hm)

theorem mem_foldl_addRemovedLine (s : String) (rs : List OrderLine)
    (acc : List ModifiedOrderLine) (m : ModifiedOrderLine)
    (hm : m ∈ rs.foldl (addRemovedLine s) acc) :
    m ∈ acc ∨ m.removed = true ∧ m.seriale = s := by
  induction rs generalizing acc with
  | nil => exact Or.inl hm
  | cons r rest ih =>
      rcases ih (addRemovedLine s acc r) hm with h | h
      · rcases mem_addRemovedLine s acc r m h with h2 | h2
        · exact Or.inl h2
        · exact Or.inr (by rw [h2]; exact ⟨rfl, rfl⟩)
      · exact Or.inr h

theorem foldl_addRemovedLine_mono (s : String) (rs : List OrderLine)
    (acc : List ModifiedOrderLine) (m : ModifiedOrderLine) (hm : m ∈ acc) :
    m ∈ rs.foldl (addRemovedLine s) acc := by
  induction rs generalizing acc with
  | nil => exact hm
  | cons r rest ih => exact ih _ (addRemovedLine_mono s acc r m hm)

theorem mem_persistSerial (cur new : List OrderLine) (acc : List ModifiedOrderLine)
    (s : String) (m : ModifiedOrderLine) (hm : m ∈ persistSerial cur new acc s) :
    m ∈ acc ∨ m.removed = true ∧ m.seriale = s :=
  mem_foldl_addRemovedLine s _ acc m hm

theorem persistSerial_mono (cur new : List OrderLine) (acc : List ModifiedOrderLine)
    (s : String) (m : ModifiedOrderLine) (hm : m ∈ acc) :
    m ∈ persistSerial cur new acc s :=
  foldl_addRemovedLine_mono s _ acc m hm

theorem mem_foldl_persistSerial (cur new : List OrderLine) (mods : List String)
    (acc : List ModifiedOrderLine) (m : ModifiedOrderLine)
    (hm : m ∈ mods.foldl (persistSerial cur new) acc) :
    m ∈ acc ∨ m.removed = true ∧ m.seriale ∈ mods := by
  induction mods generalizing acc with
  | nil => exact Or.inl hm
  | cons s rest ih =>
      rcases ih (persistSerial cur new acc s) hm with h | h
      · rcases mem_persistSerial cur new acc s m h with h2 | h2
        · exact Or.inl h2
        · exact Or.inr ⟨h2.1, h2.2 ▸ List.mem_cons_self _ _⟩
      · exact Or.inr ⟨h.1, List.mem_cons_of_mem _ h.2⟩

theorem foldl_persistSerial_mono (cur new : List OrderLine) (mods : List String)
    (acc : List ModifiedOrderLine) (m : ModifiedOrderLine) (hm : m ∈ acc) :
    m ∈ mods.foldl (persistSerial cur new) acc := by
  induction mods generalizing acc with
  | nil => exact hm
  | cons s rest ih => exact ih _ (persistSerial_mono cur new acc s m hm)

theorem filter_foldl_persistSerial_of_not_mem (cur new : List OrderLine)
    (mods : List String) (acc : List ModifiedOrderLine) (s : String)
    (hs : s ∉ mods) :
    (mods.foldl (persistSerial cur new) acc).filter (fun m => decide (m.seriale = s)) =
      acc.filter (fun m => decide (m.seriale = s)) := by
  induction mods generalizing acc with
  | nil => rfl
  | cons t rest ih =>
      have hts : t ≠ s := fun h => hs (h ▸ List.mem_cons_self _ _)
      have hrest : s ∉ rest := fun h => hs (List.mem_cons_of_mem _ h)
      rw [List.foldl_cons, ih _ hrest]
      -- persistSerial for serial t only appends rows with seriale = t ≠ s
      clear ih hrest hs
      unfold persistSerial
      generalize removedLinesFor (serialLines cur t) (serialLines new t) = rs
      induction rs generalizing acc with
      | nil => rfl
      | cons r rest2 ih2 =>
          rw [List.foldl_cons, ih2 (addRemovedLine t acc r)]
          rcases addRemovedLine_cases t acc r with h | h <;> rw [h]
          rw [List.filter_append]
          simp [molOfRemovedLine, hts]

/-!  ### C10 -/

/-- C10: a serial present in the current cache but entirely absent from the
new snapshot is never flagged as modified and no `modified_order_lines` row of
that serial is created or removed by the cycle; when additionally the total
line counts differ, the cache is replaced wholesale, so afterwards no cached
line carries that serial. -/
theorem C10_vanished_serial_not_diffed (st : AppState) (new : List OrderLine)
    (ok : Bool) (s : String)
    (hin : s ∈ serialKeys st.ordersCache)
    (hout : s ∉ serialKeys new) :
    s ∉ modifiedSerials st.ordersCache new ∧
    (reconcile st new ok).db.modifiedLines.filter (fun m => decide (m.seriale = s)) =
      st.db.modifiedLines.filter (fun m => decide (m.seriale = s)) ∧
    (new.length ≠ st.ordersCache.length →
      (reconcile st new ok).ordersCache.filter (fun r => decide (r.seriale = s)) = []) := by
  have hnotmod : s ∉ modifiedSerials st.ordersCache new := by
    intro h
    exact hout ((mem_modifiedSerials _ _ s).mp h).1
  have hnewnone : new.filter (fun r => decide (r.seriale = s)) = [] := by
    refine List.filter_eq_nil_iff.mpr ?_
    intro r hr
    simp only [decide_eq_true_eq]
    intro hrs
    exact hout ((mem_serialKeys new s).mpr ⟨r, hr, hrs⟩)
  refine ⟨hnotmod, ?_, ?_⟩
  · have hstep : (reconcilePersistStep st new ok).db.modifiedLines.filter
        (fun m => decide (m.seriale = s)) =
        st.db.modifiedLines.filter (fun m => decide (m.seriale = s)) := by
      unfold reconcilePersistStep
      split
      · split
        · exact filter_foldl_persistSerial_of_not_mem _ _ _ _ s hnotmod
        · rfl
      · rfl
    unfold reconcile
    split
    · rfl
    · split
      · exact hstep
      · rfl
  · intro hlen
    have hne2 : st.ordersCache ≠ [] := by
      intro hnil
      rw [hnil] at hin
      simp [serialKeys] at hin
    have hempty : st.ordersCache.isEmpty = false := by
      simpa [List.isEmpty_iff] using hne2
    have hcond : (!(modifiedSerials st.ordersCache new).isEmpty ||
        decide (new.length ≠ st.ordersCache.length)) = true := by
      simp [hlen]
    unfold reconcile
    simp only [hempty, Bool.false_eq_true, if_false, hcond, if_true]
    exact hnewnone

/-- C10 witness: cache with serials "A" and "B", new snapshot containing only
"A" with its line intact — "B" is not flagged, its rows are untouched, and
after the wholesale swap no cached line carries "B". -/
theorem C10_vanished_serial_not_diffed_witness :
    "B" ∉ modifiedSerials [exLine "A" "a1" 5 "pz" "R1", exLine "B" "b1" 1 "kg" "R2"]
        [exLine "A" "a1" 5 "pz" "R1"] ∧
    (reconcile (mkState [exLine "A" "a1" 5 "pz" "R1", exLine "B" "b1" 1 "kg" "R2"] emptyDB)
        [exLine "A" "a1" 5 "pz" "R1"] true).db.modifiedLines.filter
        (fun m => decide (m.seriale = "B")) = [] ∧
    (reconcile (mkState [exLine "A" "a1" 5 "pz" "R1", exLine "B" "b1" 1 "kg" "R2"] emptyDB)
        [exLine "A" "a1" 5 "pz" "R1"] true).ordersCache.filter
        (fun r => decide (r.seriale = "B")) = [] := by
  have h := C10_vanished_serial_not_diffed
    (mkState [exLine "A" "a1" 5 "pz" "R1", exLine "B" "b1" 1 "kg" "R2"] emptyDB)
    [exLine "A" "a1" 5 "pz" "R1"] true "B" (by decide) (by decide)
  exact ⟨h.1, by rw [h.2.1]; decide, h.2.2 (by decide)⟩

/-!  ### C1 -/

/-- Number of `modified_order_lines` rows carrying a given dedup key. -/
def molCount (l : List ModifiedOrderLine) (k : String × String × ℚ × String) : Nat :=
  l.countP (fun m => decide (molKey m = k))

/-- The dedup invariant of `modified_order_lines`: at most one row per
(seriale, codice_articolo, quantita, unita_misura) key. -/
def dedupOk (l : List ModifiedOrderLine) : Prop := ∀ k, molCount l k ≤ 1

theorem dedupOk_addRemovedLine (s : String) (acc : List ModifiedOrderLine)
    (r : OrderLine) (h : dedupOk acc) : dedupOk (addRemovedLine s acc r) := by
  intro k
  unfold addRemovedLine
  split
  · exact h k
  · rename_i hany
    unfold molCount
    rw [List.countP_append]
    by_cases hk : k = lineKey s r
    · have hzero : acc.countP (fun m => decide (molKey m = k)) = 0 := by
        rw [List.countP_eq_zero]
        intro m hm hdec
        exact hany (List.any_eq_true.mpr
          ⟨m, hm, decide_eq_true (hk ▸ of_decide_eq_true hdec)⟩)
      have hone : (molKey (molOfRemovedLine s r) = k) := by rw [hk]; rfl
      simp [hzero, hone]
    · have hzero : List.countP (fun m => decide (molKey m = k)) [molOfRemovedLine s r] = 0 := by
        have : molKey (molOfRemovedLine s r) ≠ k := fun hh => hk hh.symm
        simp [List.countP_cons, this]
      rw [hzero]
      simpa [molCount] using h k

theorem dedupOk_foldl_addRemovedLine (s : String) (rs : List OrderLine)
    (acc : List ModifiedOrderLine) (h : dedupOk acc) :
    dedupOk (rs.foldl (addRemovedLine s) acc) := by
  induction rs generalizing acc with
  | nil => exact h
  | cons r rest ih => exact ih _ (dedupOk_addRemovedLine s acc r h)

theorem dedupOk_foldl_persistSerial (cur new : List OrderLine) (mods : List String)
    (acc : List ModifiedOrderLine) (h : dedupOk acc) :
    dedupOk (mods.foldl (persistSerial cur new) acc) := by
  induction mods generalizing acc with
  | nil => exact h
  | cons s rest ih => exact ih _ (dedupOk_foldl_addRemovedLine s _ acc h)

theorem dedupOk_reconcilePersistStep (st : AppState) (new : List OrderLine)
    (ok : Bool) (h : dedupOk st.db.modifiedLines) :
    dedupOk (reconcilePersistStep st new ok).db.modifiedLines := by
  unfold reconcilePersistStep
  split
  · cases ok
    · simpa using h
    · simpa using dedupOk_foldl_persistSerial st.ordersCache new _ _ h
  · exact h

theorem dedupOk_reconcile (st : AppState) (new : List OrderLine) (ok : Bool)
    (h : dedupOk st.db.modifiedLines) :
    dedupOk (reconcile st new ok).db.modifiedLines := by
  unfold reconcile
  split
  · exact h
  · split
    · exact dedupOk_reconcilePersistStep st new ok h
    · exact h

theorem presence_addRemovedLine (s : String) (acc : List ModifiedOrderLine)
    (r : OrderLine) :
    ∃ m ∈ addRemovedLine s acc r,
      molKey m = lineKey s r ∧ (m ∈ acc ∨ m.removed = true) := by
  unfold addRemovedLine
  split
  · rename_i hany
    rcases List.any_eq_true.mp hany with ⟨m, hm, hdec⟩
    exact ⟨m, hm, of_decide_eq_true hdec, Or.inl hm⟩
  · exact ⟨molOfRemovedLine s r, by simp, rfl, Or.inr rfl⟩

theorem presence_foldl_addRemovedLine (s : String) (rs : List OrderLine)
    (acc : List ModifiedOrderLine) (r : OrderLine) (hr : r ∈ rs) :
    ∃ m ∈ rs.foldl (addRemovedLine s) acc,
      molKey m = lineKey s r ∧ (m ∈ acc ∨ m.removed = true) := by
  induction rs generalizing acc with
  | nil => cases hr
  | cons r0 rest ih =>
      rw [List.foldl_cons]
      rcases List.mem_cons.mp hr with rfl | hr2
      · rcases presence_addRemovedLine s acc r with ⟨m, hm, hkey, hsrc⟩
        exact ⟨m, foldl_addRemovedLine_mono s rest _ m hm, hkey, hsrc⟩
      · rcases ih (addRemovedLine s acc r0) hr2 with ⟨m, hm, hkey, hsrc⟩
        refine ⟨m, hm, hkey, ?_⟩
        rcases hsrc with h1 | h1
        · rcases mem_addRemovedLine s acc r0 m h1 with h2 | h2
          · exact Or.inl h2
          · exact Or.inr (by rw [h2]; rfl)
        · exact Or.inr h1

theorem presence_foldl_persistSerial (cur new : List OrderLine) (mods : List String)
    (acc : List ModifiedOrderLine) (s : String) (r : OrderLine)
    (hs : s ∈ mods) (hr : r ∈ removedLinesFor (serialLines cur s) (serialLines new s)) :
    ∃ m ∈ mods.foldl (persistSerial cur new) acc,
      molKey m = lineKey s r ∧ (m ∈ acc ∨ m.removed = true) := by
  induction mods generalizing acc with
  | nil => cases hs
  | cons t rest ih =>
      rw [List.foldl_cons]
      rcases List.mem_cons.mp hs with rfl | hs2
      · rcases presence_foldl_addRemovedLine s _ acc r hr with ⟨m, hm, hkey, hsrc⟩
        exact ⟨m, foldl_persistSerial_mono cur new rest _ m hm, hkey, hsrc⟩
      · rcases ih (persistSerial cur new acc t) hs2 with ⟨m, hm, hkey, hsrc⟩
        refine ⟨m, hm, hkey, ?_⟩
        rcases hsrc with h1 | h1
        · rcases mem_persistSerial cur new acc t m h1 with h2 | h2
          · exact Or.inl h2
          · exact Or.inr h2.1
        · exact Or.inr h1

/-- The spec example: order "A" with lines (art1, 5, pz) and (art2, 2, kg). -/
def exC1Cur : List OrderLine :=
  [exLine "A" "art1" 5 "pz" "R1", exLine "A" "art2" 2 "kg" "R1"]

/-- The new snapshot of the spec example: only (art1, 5, pz) survives. -/
def exC1New : List OrderLine := [exLine "A" "art1" 5 "pz" "R1"]

/-- The single audit record the spec example must produce. -/
def exC1Removed : ModifiedOrderLine := molOfRemovedLine "A" (exLine "A" "art2" 2 "kg" "R1")

/-- C1: (i) the dedup lookup on (seriale, articolo, quantita, unita) preserves
the at-most-one-row-per-key invariant across any reconciliation cycle;
(ii) on a committing cycle every line of a flagged order whose signature
disappeared has a row under its key afterwards (a pre-existing row, or a fresh
one flagged `removed`); (iii) in the spec example — order "A" losing
(art2, 2, kg) — exactly the one expected record is persisted and the new cache
no longer contains art2 for "A"; (iv) rerunning a cycle in which the same line
disappears again creates no second record. -/
theorem C1_disappearance_dedup (st : AppState) (new : List OrderLine) (ok : Bool)
    (h : dedupOk st.db.modifiedLines) :
    dedupOk (reconcile st new ok).db.modifiedLines ∧
    (ok = true → ∀ s ∈ modifiedSerials st.ordersCache new,
      ∀ r ∈ removedLinesFor (serialLines st.ordersCache s) (serialLines new s),
        ∃ m ∈ (reconcile st new ok).db.modifiedLines,
          molKey m = lineKey s r ∧ (m ∈ st.db.modifiedLines ∨ m.removed = true)) ∧
    (reconcile (mkState exC1Cur emptyDB) exC1New true).db.modifiedLines = [exC1Removed] ∧
    (reconcile (mkState exC1Cur emptyDB) exC1New true).ordersCache.filter
      (fun r => decide (r.seriale = "A") && decide (r.codice_articolo = "art2")) = [] ∧
    (reconcile { reconcile (mkState exC1Cur emptyDB) exC1New true with
        ordersCache := exC1Cur } exC1New true).db.modifiedLines = [exC1Removed] := by
  refine ⟨dedupOk_reconcile st new ok h, ?_, by decide, by decide, by decide⟩
  intro hok s hs r hr
  subst hok
  have hmodne : modifiedSerials st.ordersCache new ≠ [] := by
    intro h0; rw [h0] at hs; cases hs
  have hmods : (modifiedSerials st.ordersCache new).isEmpty = false := by
    simpa [List.isEmpty_iff] using hmodne
  have hcur : s ∈ serialKeys st.ordersCache := ((mem_modifiedSerials _ _ s).mp hs).2.1
  have hcacheNe : st.ordersCache.isEmpty = false := by
    have hne2 : st.ordersCache ≠ [] := by
      intro hnil; rw [hnil] at hcur; simp [serialKeys] at hcur
    simpa [List.isEmpty_iff] using hne2
  rcases presence_foldl_persistSerial st.ordersCache new _ st.db.modifiedLines s r hs hr
    with ⟨m, hm, hkey, hsrc⟩
  refine ⟨m, ?_, hkey, hsrc⟩
  unfold reconcile
  simp only [hcacheNe, Bool.false_eq_true, if_false]
  rw [if_pos (by simp [hmods])]
  show m ∈ (reconcilePersistStep st new true).db.modifiedLines
  unfold reconcilePersistStep
  rw [if_pos (by simp [hmods])]
  simpa using hm

/-- C1 witness: the dedup invariant holds after running the spec example
(instantiating the theorem at its own concrete cycle). -/
theorem C1_disappearance_dedup_witness :
    dedupOk (reconcile (mkState exC1Cur emptyDB) exC1New true).db.modifiedLines :=
  (C1_disappearance_dedup (mkState exC1Cur emptyDB) exC1New true
    (fun k => by simp [molCount, mkState, emptyDB])).1

/-!  ### C8 -/

theorem applyConversion_codice_reparto (art : ArticoloReparto) (line : OrderLine) :
    (applyConversion art line).codice_reparto = line.codice_reparto := by
  unfold applyConversion
  split
  · split
    · split <;> rfl
    · rfl
  · rfl

/-- A raw CSV line with a blank article code. -/
def exBlankLine : OrderLine :=
  { seriale := "S", codice_articolo := "", descrizione_articolo := "d",
    descrizione_supplementare := "", quantita := 1, unita_misura := "pz",
    prezzo_unitario := none, numero_ordine := "N", nome_cliente := "C",
    ritiro := "", data_ordine := "2026-01-10" }

/-- C8 counterexample: in full-reload mode a blank article code does NOT get
the generic default department — the department stays unset, refuting the
claim's full-reload half at this concrete input. -/
theorem C8_counterexample_blank_full_mode :
    (enrichLine true (fun _ => none) "2026-02-01" exBlankLine).codice_reparto = none ∧
    (none : Option String) ≠ some "REP05" := by
  exact ⟨by decide, by decide⟩

/-- C8 amended: a blank/missing article code leaves the department exactly as
it was (no default) in BOTH incremental and full-reload modes; the
full-vs-incremental divergence is elsewhere: for an article found in the
reference table with a falsy primary department, full reload defaults to
"REP05" while incremental refresh assigns the empty string. -/
theorem C8_amended_blank_no_default (mode : Bool) (lookup : Lookup) (date : String)
    (line : OrderLine) (hblank : pyStrip line.codice_articolo = "") :
    (enrichLine mode lookup date line).codice_reparto = line.codice_reparto ∧
    (∀ (l2 : OrderLine) (art : ArticoloReparto),
      pyStrip l2.codice_articolo ≠ "" →
      lookup (pyStrip l2.codice_articolo) = some art →
      strTruthy art.tipo_collo_1 = false →
      (enrichLine true lookup date l2).codice_reparto = some "REP05" ∧
      (enrichLine false lookup date l2).codice_reparto = some "") := by
  constructor
  · simp [enrichLine, hblank]
  · intro l2 art hne hlook htc
    constructor <;>
      simp [enrichLine, hne, hlook, htc, applyConversion_codice_reparto]

/-- C8 witness: the blank-line instance of the amended theorem, plus the
divergence pair at a concrete reference row with an empty primary
department. -/
theorem C8_amended_blank_no_default_witness :
    (enrichLine true (fun _ => none) "2026-02-01" exBlankLine).codice_reparto =
      exBlankLine.codice_reparto ∧
    (enrichLine true (fun _ => some ⟨"a1", some "", none, none, none⟩) "2026-02-01"
      (exLine "S" "a1" 1 "pz" "R1")).codice_reparto = some "REP05" ∧
    (enrichLine false (fun _ => some ⟨"a1", some "", none, none, none⟩) "2026-02-01"
      (exLine "S" "a1" 1 "pz" "R1")).codice_reparto = some "" := by
  have h1 := (C8_amended_blank_no_default true (fun _ => none) "2026-02-01"
    exBlankLine (by decide)).1
  have h2 := (C8_amended_blank_no_default true
    (fun _ => some ⟨"a1", some "", none, none, none⟩) "2026-02-01"
    exBlankLine (by decide)).2 (exLine "S" "a1" 1 "pz" "R1")
    ⟨"a1", some "", none, none, none⟩ (by decide) (by decide) (by decide)
  exact ⟨h1, h2.1, h2.2⟩

/-!  ### C9 -/

theorem processUnavailItem_mem (cache : List OrderLine) (seriale : String)
    (urep : Option String) (arts : List String) (db : DBState) (item : UnavailItem)
    (m : ModifiedOrderLine)
    (hm : m ∈ (processUnavailItem cache seriale urep arts db item).modifiedLines) :
    m ∈ db.modifiedLines ∨ m.removed = false := by
  unfold processUnavailItem at hm
  split at hm
  · exact Or.inl hm
  · split at hm
    · exact Or.inl hm
    · split at hm
      · exact Or.inl hm
      · rcases List.mem_append.mp hm with h1 | h1
        · exact Or.inl h1
        · exact Or.inr (by rw [List.mem_singleton.mp h1]; rfl)

theorem foldl_processUnavailItem_mem (cache : List OrderLine) (seriale : String)
    (urep : Option String) (arts : List String) (payload : List UnavailItem)
    (db : DBState) (m : ModifiedOrderLine)
    (hm : m ∈ (payload.foldl (processUnavailItem cache seriale urep arts) db).modifiedLines) :
    m ∈ db.modifiedLines ∨ m.removed = false := by
  induction payload generalizing db with
  | nil => exact Or.inl hm
  | cons it rest ih =>
      rcases ih _ hm with h | h
      · exact processUnavailItem_mem cache seriale urep arts db it m h
      · exact Or.inr h

theorem autoStartPreparation_modifiedLines (db : DBState) (s op rep : String) :
    (autoStartPreparation db s op rep).modifiedLines = db.modifiedLines := by
  unfold autoStartPreparation
  split <;> rfl

theorem reconcile_new_rows_removed (st : AppState) (new : List OrderLine) (ok : Bool)
    (m : ModifiedOrderLine) (hm : m ∈ (reconcile st new ok).db.modifiedLines) :
    m ∈ st.db.modifiedLines ∨ m.removed = true := by
  unfold reconcile at hm
  split at hm
  · exact Or.inl hm
  · split at hm
    · unfold reconcilePersistStep at hm
      split at hm
      · cases ok
        · exact Or.inl hm
        · rcases mem_foldl_persistSerial st.ordersCache new _ _ m hm with h | h
          · exact Or.inl h
          · exact Or.inr h.1
      · exact Or.inl hm
    · exact Or.inl hm

/-- C9 counterexample: the unavailable-lines route, not the reconciliation
engine, inserts a `modified_order_lines` row (with `removed = False`) when a
picker flags an article with no pre-existing row — refuting "no other
operation of the system ever inserts a ModifiedOrderLine row". -/
theorem C9_counterexample_unavailable_inserts :
    (mkState [exLine "S" "a1" 3 "pz" "R1"] emptyDB).db.modifiedLines = [] ∧
    (markLinesUnavailable (mkState [exLine "S" "a1" 3 "pz" "R1"] emptyDB) "S"
      (some "R1") "u" [⟨"a1", none, true⟩]).db.modifiedLines =
      [molOfUnavailBase "S" (exLine "S" "a1" 3 "pz" "R1")] ∧
    (molOfUnavailBase "S" (exLine "S" "a1" 3 "pz" "R1")).removed = false := by
  exact ⟨by decide, by decide, by decide⟩

/-- C9 amended: `modified_order_lines` rows are inserted in exactly two
places — the reconciliation engine, whose fresh rows always carry
`removed = True`, and the mark-lines-unavailable action, whose fresh backing
rows always carry `removed = False`; no other modelled operation inserts
one. -/
theorem C9_amended_two_writers (st st2 : AppState) (new : List OrderLine)
    (ok : Bool) (seriale : String) (urep : Option String) (user : String)
    (payload : List UnavailItem) (m m2 : ModifiedOrderLine)
    (hm : m ∈ (reconcile st new ok).db.modifiedLines)
    (hm2 : m2 ∈ (markLinesUnavailable st2 seriale urep user payload).db.modifiedLines) :
    (m ∈ st.db.modifiedLines ∨ m.removed = true) ∧
    (m2 ∈ st2.db.modifiedLines ∨ m2.removed = false) := by
  refine ⟨reconcile_new_rows_removed st new ok m hm, ?_⟩
  unfold markLinesUnavailable at hm2
  split at hm2
  · rw [autoStartPreparation_modifiedLines] at hm2
    exact foldl_processUnavailItem_mem _ _ _ _ _ _ m2 hm2
  · exact foldl_processUnavailItem_mem _ _ _ _ _ _ m2 hm2

/-- C9 witness: the two-writer theorem instantiated at the concrete
reconciliation of the C1 example and the concrete unavailable-marking of the
counterexample state. -/
theorem C9_amended_two_writers_witness :
    (exC1Removed ∈ (mkState exC1Cur emptyDB).db.modifiedLines ∨
      exC1Removed.removed = true) ∧
    (molOfUnavailBase "S" (exLine "S" "a1" 3 "pz" "R1") ∈
        (mkState [exLine "S" "a1" 3 "pz" "R1"] emptyDB).db.modifiedLines ∨
      (molOfUnavailBase "S" (exLine "S" "a1" 3 "pz" "R1")).removed = false) :=
  C9_amended_two_writers (mkState exC1Cur emptyDB)
    (mkState [exLine "S" "a1" 3 "pz" "R1"] emptyDB) exC1New true "S" (some "R1") "u"
    [⟨"a1", none, true⟩] exC1Removed (molOfUnavailBase "S" (exLine "S" "a1" 3 "pz" "R1"))
    (by decide) (by decide)

/-!  ### C6 -/

/-- Status column of the (unique) `order_status` row of a serial. -/
def orderStatusOf (rows : List OrderStatusRow) (s : String) : Option String :=
  (rows.find? (fun row => decide (row.seriale = s))).map (fun row => row.status)

theorem find?_updateFirst_seriale (f : OrderStatusRow → OrderStatusRow)
    (l : List OrderStatusRow) (s : String)
    (hf : ∀ x, (f x).seriale = x.seriale) :
    (updateFirst (fun row => decide (row.seriale = s)) f l).find?
        (fun row => decide (row.seriale = s)) =
      (l.find? (fun row => decide (row.seriale = s))).map f := by
  induction l with
  | nil => rfl
  | cons x xs ih =>
      by_cases hx : x.seriale = s
      · rw [updateFirst, if_pos (decide_eq_true hx),
          List.find?_cons_of_pos _ (by simp [hf, hx]),
          List.find?_cons_of_pos _ (by simp [hx])]
        rfl
      · rw [updateFirst, if_neg (by simp [hx]), List.find?_cons_of_neg _ (by simp [hx]),
          List.find?_cons_of_neg _ (by simp [hx]), ih]

theorem find?_append_singleton_of_none (p : α → Bool) (l : List α) (x : α)
    (hl : l.find? p = none) : (l ++ [x]).find? p = if p x then some x else none := by
  induction l with
  | nil => cases hx : p x <;> simp [List.find?, hx]
  | cons y ys ih =>
      have hy : ¬ p y = true := by
        intro hpy
        rw [List.find?_cons_of_pos _ hpy] at hl
        cases hl
      rw [List.cons_append, List.find?_cons_of_neg _ hy]
      rw [List.find?_cons_of_neg _ hy] at hl
      exact ih hl

theorem generalRowUpdate_seriale (op : String) (ap : Bool) (ns : String)
    (row : OrderStatusRow) : (generalRowUpdate op ap ns row).seriale = row.seriale := by
  unfold generalRowUpdate
  split
  · rfl
  · split <;> rfl

theorem generalRowUpdate_status_true (op ns : String) (row : OrderStatusRow) :
    (generalRowUpdate op true ns row).status = "pronto" := rfl

theorem generalRowUpdate_status_false (op ns : String) (row : OrderStatusRow) :
    (generalRowUpdate op false ns row).status =
      (if ns = "in_preparazione" then "in_preparazione" else row.status) := by
  unfold generalRowUpdate
  by_cases hns : ns = "in_preparazione" <;> simp [hns]

theorem orderStatusOf_generalStatusUpdate_true (rows : List OrderStatusRow)
    (s op stat : String) :
    orderStatusOf (generalStatusUpdate rows s op true stat) s = some "pronto" := by
  unfold generalStatusUpdate orderStatusOf
  by_cases hany : rows.any (fun row => decide (row.seriale = s)) = true
  · rw [if_pos hany,
      find?_updateFirst_seriale (generalRowUpdate op true stat) rows s
        (generalRowUpdate_seriale op true stat)]
    rcases List.any_eq_true.mp hany with ⟨x, hx, hpx⟩
    cases hfind : rows.find? (fun row => decide (row.seriale = s)) with
    | none => exact absurd hpx (List.find?_eq_none.mp hfind x hx)
    | some x0 => simp [generalRowUpdate_status_true]
  · rw [if_neg hany]
    have hnone : rows.find? (fun row => decide (row.seriale = s)) = none := by
      rw [List.find?_eq_none]
      intro a ha hpa
      exact hany (List.any_eq_true.mpr ⟨a, ha, hpa⟩)
    rw [find?_append_singleton_of_none _ _ _ hnone, if_pos (by simp)]
    rfl

theorem orderStatusOf_generalStatusUpdate_false (rows : List OrderStatusRow)
    (s op stat : String) :
    orderStatusOf (generalStatusUpdate rows s op false stat) s =
      some (if stat = "in_preparazione" then "in_preparazione"
            else (orderStatusOf rows s).getD "in_preparazione") := by
  unfold generalStatusUpdate orderStatusOf
  by_cases hany : rows.any (fun row => decide (row.seriale = s)) = true
  · rw [if_pos hany,
      find?_updateFirst_seriale (generalRowUpdate op false stat) rows s
        (generalRowUpdate_seriale op false stat)]
    rcases List.any_eq_true.mp hany with ⟨x, hx, hpx⟩
    cases hfind : rows.find? (fun row => decide (row.seriale = s)) with
    | none => exact absurd hpx (List.find?_eq_none.mp hfind x hx)
    | some x0 => simp [generalRowUpdate_status_false]
  · rw [if_neg hany]
    have hnone : rows.find? (fun row => decide (row.seriale = s)) = none := by
      rw [List.find?_eq_none]
      intro a ha hpa
      exact hany (List.any_eq_true.mpr ⟨a, ha, hpa⟩)
    rw [find?_append_singleton_of_none _ _ _ hnone, if_pos (by simp)]
    simp [hnone]

/-- How `update_order_status` really writes the order-level row: `pronto` when
all involved departments are pronto after the upsert; otherwise the posted
`in_preparazione`, or — when something else was posted — the prior persisted
value (defaulting to `in_preparazione` when no row existed). -/
theorem updateOrderStatus_orderStatusOf (st : AppState) (s rep op stat : String) :
    orderStatusOf (updateOrderStatus st s rep op stat).db.orderStatus s =
      (if tuttiPronti (upsertStatusByReparto st.db.statusByReparto s rep stat op)
          st.ordersCache s then some "pronto"
       else some (if stat = "in_preparazione" then "in_preparazione"
                  else (orderStatusOf st.db.orderStatus s).getD "in_preparazione")) := by
  have hbase : (updateOrderStatus st s rep op stat).db.orderStatus =
      generalStatusUpdate st.db.orderStatus s op
        (tuttiPronti (upsertStatusByReparto st.db.statusByReparto s rep stat op)
          st.ordersCache s) stat := by
    unfold updateOrderStatus
    split <;> rfl
  rw [hbase]
  by_cases hTP : tuttiPronti (upsertStatusByReparto st.db.statusByReparto s rep stat op)
      st.ordersCache s = true
  · rw [hTP, if_pos rfl, orderStatusOf_generalStatusUpdate_true]
  · have hTF : tuttiPronti (upsertStatusByReparto st.db.statusByReparto s rep stat op)
        st.ordersCache s = false := by revert hTP; cases tuttiPronti _ _ _ <;> simp
    rw [hTF, orderStatusOf_generalStatusUpdate_false]
    simp

/-- The two-department fixture of the C6 counterexample. -/
def exC6St : AppState :=
  mkState [exLine "S1" "a1" 1 "pz" "R1", exLine "S1" "a2" 1 "pz" "R2"] emptyDB

/-- C6 counterexample: order "S1" spans departments R1 and R2 with no recorded
statuses; R1 posts `pronto`.  The roll-up over the cached departments says
`nuovo` (R2 has no status and nothing is in preparation), and the view derives
exactly that — but the persisted order-level row is created as
`in_preparazione`, so the persisted status is NOT the pure roll-up. -/
theorem C6_counterexample_persisted_not_rollup :
    (updateOrderStatus exC6St "S1" "R1" "u" "pronto").db.orderStatus.map
      (fun row => row.status) = ["in_preparazione"] ∧
    homeOrderStatus (updateOrderStatus exC6St "S1" "R1" "u" "pronto") "S1" = "nuovo" ∧
    ("in_preparazione" : String) ≠ "nuovo" := by
  exact ⟨by decide, by decide, by decide⟩

/-- C6 amended: the VIEW-derived order status is the stated pure roll-up of
the per-department statuses over the departments of the order's cached lines
(for orders with at least one department); the PERSISTED order-level row after
a department update instead follows `updateOrderStatus_orderStatusOf`:
`pronto` exactly when all departments are pronto, else the posted
`in_preparazione`, else the prior persisted value (created as
`in_preparazione`), which can differ from the roll-up. -/
theorem C6_amended_rollup (st : AppState) (s : String)
    (hrep : ordineReparti st.ordersCache s ≠ []) :
    (homeOrderStatus st s = "pronto" ↔
      ∀ r ∈ ordineReparti st.ordersCache s,
        statusOfReparto st.db.statusByReparto s r = some "pronto") ∧
    (homeOrderStatus st s = "in_preparazione" ↔
      (¬ (∀ r ∈ ordineReparti st.ordersCache s,
          statusOfReparto st.db.statusByReparto s r = some "pronto") ∧
       ∃ r ∈ ordineReparti st.ordersCache s,
         statusOfReparto st.db.statusByReparto s r = some "in_preparazione")) ∧
    (homeOrderStatus st s = "nuovo" ↔
      (¬ (∀ r ∈ ordineReparti st.ordersCache s,
          statusOfReparto st.db.statusByReparto s r = some "pronto") ∧
       ¬ ∃ r ∈ ordineReparti st.ordersCache s,
         statusOfReparto st.db.statusByReparto s r = some "in_preparazione")) ∧
    (∀ rep op stat,
      orderStatusOf (updateOrderStatus st s rep op stat).db.orderStatus s =
        (if tuttiPronti (upsertStatusByReparto st.db.statusByReparto s rep stat op)
            st.ordersCache s then some "pronto"
         else some (if stat = "in_preparazione" then "in_preparazione"
                    else (orderStatusOf st.db.orderStatus s).getD "in_preparazione"))) := by
  have hemp : (ordineReparti st.ordersCache s).isEmpty = false := by
    simpa [List.isEmpty_iff] using hrep
  by_cases hall : (ordineReparti st.ordersCache s).all
      (fun r => decide (statusOfReparto st.db.statusByReparto s r = some "pronto")) = true
  · have hallP : ∀ r ∈ ordineReparti st.ordersCache s,
        statusOfReparto st.db.statusByReparto s r = some "pronto" :=
      fun r hr => of_decide_eq_true (List.all_eq_true.mp hall r hr)
    have hhome : homeOrderStatus st s = "pronto" := by
      unfold homeOrderStatus
      simp only [hemp, Bool.false_eq_true, if_false]
      rw [if_pos hall]
    refine ⟨?_, ?_, ?_, fun rep op stat => updateOrderStatus_orderStatusOf st s rep op stat⟩
    · rw [hhome]; exact ⟨fun _ => hallP, fun _ => rfl⟩
    · rw [hhome]
      exact ⟨fun h => absurd h (by decide), fun hp => absurd hallP hp.1⟩
    · rw [hhome]
      exact ⟨fun h => absurd h (by decide), fun hp => absurd hallP hp.1⟩
  · have hallF : ¬ ∀ r ∈ ordineReparti st.ordersCache s,
        statusOfReparto st.db.statusByReparto s r = some "pronto" := by
      intro hc
      exact hall (List.all_eq_true.mpr fun r hr => decide_eq_true (hc r hr))
    by_cases hany : (ordineReparti st.ordersCache s).any
        (fun r => decide (statusOfReparto st.db.statusByReparto s r = some "in_preparazione")) = true
    · have hanyP : ∃ r ∈ ordineReparti st.ordersCache s,
          statusOfReparto st.db.statusByReparto s r = some "in_preparazione" := by
        rcases List.any_eq_true.mp hany with ⟨r, hr, hd⟩
        exact ⟨r, hr, of_decide_eq_true hd⟩
      have hhome : homeOrderStatus st s = "in_preparazione" := by
        unfold homeOrderStatus
        simp only [hemp, Bool.false_eq_true, if_false]
        rw [if_neg hall, if_pos hany]
      refine ⟨?_, ?_, ?_, fun rep op stat => updateOrderStatus_orderStatusOf st s rep op stat⟩
      · rw [hhome]
        exact ⟨fun h => absurd h (by decide), fun hp => absurd hp hallF⟩
      · rw [hhome]; exact ⟨fun _ => ⟨hallF, hanyP⟩, fun _ => rfl⟩
      · rw [hhome]
        exact ⟨fun h => absurd h (by decide), fun hp => absurd hanyP hp.2⟩
    · have hanyF : ¬ ∃ r ∈ ordineReparti st.ordersCache s,
          statusOfReparto st.db.statusByReparto s r = some "in_preparazione" := by
        rintro ⟨r, hr, hstat⟩
        exact hany (List.any_eq_true.mpr ⟨r, hr, decide_eq_true hstat⟩)
      have hhome : homeOrderStatus st s = "nuovo" := by
        unfold homeOrderStatus
        simp only [hemp, Bool.false_eq_true, if_false]
        rw [if_neg hall, if_neg hany]
      refine ⟨?_, ?_, ?_, fun rep op stat => updateOrderStatus_orderStatusOf st s rep op stat⟩
      · rw [hhome]
        exact ⟨fun h => absurd h (by decide), fun hp => absurd hp hallF⟩
      · rw [hhome]
        exact ⟨fun h => absurd h (by decide), fun hp => absurd hp.2 hanyF⟩
      · rw [hhome]; exact ⟨fun _ => ⟨hallF, hanyF⟩, fun _ => rfl⟩

/-- C6 witness: the amended theorem instantiated at the counterexample state
after R1 posted `pronto` — the view roll-up characterization holds there. -/
theorem C6_amended_rollup_witness :
    homeOrderStatus (updateOrderStatus exC6St "S1" "R1" "u" "pronto") "S1" = "nuovo" := by
  have h := (C6_amended_rollup (updateOrderStatus exC6St "S1" "R1" "u" "pronto") "S1"
    (by decide)).2.2.1
  exact h.mpr ⟨by decide, by decide⟩

/-!  ### C7 -/

theorem filter_not_filter_eq_nil (p : α → Bool) (l : List α) :
    (l.filter (fun a => !(p a))).filter p = [] := by
  refine List.filter_eq_nil_iff.mpr ?_
  intro a ha
  have h2 := (List.mem_filter.mp ha).2
  simp only [Bool.not_eq_true'] at h2
  simp [h2]

theorem filter_not_filter_self (p : α → Bool) (l : List α) :
    (l.filter (fun a => !(p a))).filter (fun a => !(p a)) =
      l.filter (fun a => !(p a)) :=
  List.filter_eq_self.mpr fun _ ha => (List.mem_filter.mp ha).2

theorem updateOrderStatus_residues_pronto (st : AppState) (s rep op : String) :
    (updateOrderStatus st s rep op "pronto").db.residues =
      st.db.residues.filter
        (fun row => !(decide (row.seriale = s) && decide (row.reparto = rep))) ++
      residueRowsFor st.ordersCache st.db.orderEdits st.db.modifiedLines s rep := by
  unfold updateOrderStatus
  rw [if_pos rfl]
  rfl

theorem residueRowsFor_mem (cache : List OrderLine) (edits : List OrderEditRow)
    (mols : List ModifiedOrderLine) (s rep : String) (row : ResidueRow)
    (hrow : row ∈ residueRowsFor cache edits mols s rep) :
    row.seriale = s ∧ row.reparto = rep ∧ 1 / 10000 < row.residuo_quantita := by
  unfold residueRowsFor at hrow
  rcases List.mem_filterMap.mp hrow with ⟨code, hcode, hsome⟩
  by_cases hgt : max 0 (requestedFor (residueLinesOf cache s rep) code -
      confirmedFor edits mols s rep code) > 1 / 10000
  · rw [if_pos hgt] at hsome
    cases hsome
    exact ⟨rfl, rfl, hgt⟩
  · rw [if_neg hgt] at hsome
    cases hsome

/-- C7: marking a department `pronto` recomputes its residues as a full
replace — (i) afterwards the rows of the exact (seriale, reparto) pair are
exactly the freshly computed `residueRowsFor` of the call-time cache, edits
and modified-lines tables (so a second `pronto` with different edit histories
leaves exactly the second call's residues, with no stale rows);
(ii) every such row is the pair's own and has residue strictly above the
0.0001 epsilon (hence strictly positive); (iii) rows of every other
(seriale, reparto) pair are untouched. -/
theorem C7_residue_full_replace (st : AppState) (s rep op : String) :
    (updateOrderStatus st s rep op "pronto").db.residues.filter
        (fun row => decide (row.seriale = s) && decide (row.reparto = rep)) =
      residueRowsFor st.ordersCache st.db.orderEdits st.db.modifiedLines s rep ∧
    (∀ row ∈ residueRowsFor st.ordersCache st.db.orderEdits st.db.modifiedLines s rep,
      row.seriale = s ∧ row.reparto = rep ∧ 1 / 10000 < row.residuo_quantita) ∧
    (updateOrderStatus st s rep op "pronto").db.residues.filter
        (fun row => !(decide (row.seriale = s) && decide (row.reparto = rep))) =
      st.db.residues.filter
        (fun row => !(decide (row.seriale = s) && decide (row.reparto = rep))) := by
  have hfields := residueRowsFor_mem st.ordersCache st.db.orderEdits st.db.modifiedLines s rep
  have hkeep : (residueRowsFor st.ordersCache st.db.orderEdits st.db.modifiedLines s rep).filter
      (fun row => decide (row.seriale = s) && decide (row.reparto = rep)) =
      residueRowsFor st.ordersCache st.db.orderEdits st.db.modifiedLines s rep := by
    refine List.filter_eq_self.mpr fun row hrow => ?_
    rcases hfields row hrow with ⟨h1, h2, -⟩
    simp [h1, h2]
  have hdrop : (residueRowsFor st.ordersCache st.db.orderEdits st.db.modifiedLines s rep).filter
      (fun row => !(decide (row.seriale = s) && decide (row.reparto = rep))) = [] := by
    refine List.filter_eq_nil_iff.mpr fun row hrow => ?_
    rcases hfields row hrow with ⟨h1, h2, -⟩
    simp [h1, h2]
  refine ⟨?_, hfields, ?_⟩
  · rw [updateOrderStatus_residues_pronto, List.filter_append,
      filter_not_filter_eq_nil, hkeep, List.nil_append]
  · rw [updateOrderStatus_residues_pronto, List.filter_append,
      filter_not_filter_self, hdrop, List.append_nil]

/-- C7 witness: instantiated at a concrete one-line order with an applied
edit, and — for the replace-not-append reading — at a second `pronto` call
issued after the edit history changed: in both cases the (seriale, reparto)
rows equal the call-time recomputation, so nothing stale survives. -/
theorem C7_residue_full_replace_witness :
    (updateOrderStatus (mkState [exLine "S" "a1" 5 "pz" "R1"]
        { emptyDB with orderEdits := [⟨"S", "a1", 3, "pz", "u", true⟩] })
        "S" "R1" "u" "pronto").db.residues.filter
        (fun row => decide (row.seriale = "S") && decide (row.reparto = "R1")) =
      residueRowsFor [exLine "S" "a1" 5 "pz" "R1"] [⟨"S", "a1", 3, "pz", "u", true⟩] []
        "S" "R1" ∧
    (updateOrderStatus
        { updateOrderStatus (mkState [exLine "S" "a1" 5 "pz" "R1"]
            { emptyDB with orderEdits := [⟨"S", "a1", 3, "pz", "u", true⟩] })
            "S" "R1" "u" "pronto" with
          db := { (updateOrderStatus (mkState [exLine "S" "a1" 5 "pz" "R1"]
              { emptyDB with orderEdits := [⟨"S", "a1", 3, "pz", "u", true⟩] })
              "S" "R1" "u" "pronto").db with
            orderEdits := [⟨"S", "a1", 4, "pz", "u", true⟩] } }
        "S" "R1" "u2" "pronto").db.residues.filter
        (fun row => decide (row.seriale = "S") && decide (row.reparto = "R1")) =
      residueRowsFor [exLine "S" "a1" 5 "pz" "R1"] [⟨"S", "a1", 4, "pz", "u", true⟩]
        [] "S" "R1" := by
  constructor
  · exact (C7_residue_full_replace (mkState [exLine "S" "a1" 5 "pz" "R1"]
      { emptyDB with orderEdits := [⟨"S", "a1", 3, "pz", "u", true⟩] }) "S" "R1" "u").1
  · exact (C7_residue_full_replace _ "S" "R1" "u2").1

end Giorza
